import Mathlib

/-!
Shallow embedding of the `dataforest_test_project` repository
(task1: threaded scraping pipeline, task2: supervised multi-process
scraper) together with proofs about the claims of its specification.

Section 1 embeds `src/task2/process_manager.py` (`ProcessManager`):
the static partition of the category list done by `start_processes`,
the chunk recomputation done by `monitor` when relaunching a crashed
process, and the monitor polling loop itself as a step function over
explicit process states.

Section 2 embeds `src/task1/scraper.py` and `src/task1/db_writer.py`:
the worker pool / result-queue pipeline of `BaseScraper.run`,
`scrape_worker`, `db_writer_worker`, `insert_to_db`, `DBWriter.run`,
`DBWriter.insert`, and the fetch/parse logic of `VendrScraper`
(`fetch_category_products`, `fetch_api_products`, `parse_product`)
over explicit oracles for the network and HTML-parsing effects.
-/

namespace ProcMgr

/-- Python list slicing `l[a:b]` for non-negative bounds: the elements at
indices `a, a+1, ..., b-1`, clamped to the length of the list. -/
def pySlice {γ : Type} (l : List γ) (a b : Nat) : List γ :=
  (l.take b).drop a

/-- Chunk assigned to worker `i` by `ProcessManager.start_processes`
(src/task2/process_manager.py lines 15-19): `chunk_size = len // n`,
`start = i * chunk_size`, `end = (i+1) * chunk_size if i < n - 1 else len`,
`subset = categories[start:end]`. -/
def start_processes_chunk {γ : Type} (categories : List γ) (n i : Nat) : List γ :=
  let chunk_size := categories.length / n
  pySlice categories (i * chunk_size)
    (if i < n - 1 then (i + 1) * chunk_size else categories.length)

/-- Chunk recomputed for index `i` by `ProcessManager.monitor` when it
relaunches a crashed process (src/task2/process_manager.py line 29):
`categories[(i * (len // n)):((i + 1) * (len // n))]` — with no special
case for the last index. -/
def monitor_chunk {γ : Type} (categories : List γ) (n i : Nat) : List γ :=
  pySlice categories (i * (categories.length / n)) ((i + 1) * (categories.length / n))

/-- State of one tracked execution unit, as `ProcessManager.monitor` observes
it: `alive` mirrors `p.is_alive()`, `exitcode` mirrors `p.exitcode` (which is
`None` while the process is alive), and `gen` counts how many times the slot
has been relaunched (0 for the unit launched by `start_processes`). -/
structure Proc where
  alive : Bool
  exitcode : Option Int
  gen : Nat
deriving DecidableEq, Repr

/-- Replacement process launched by `monitor` for a crashed slot: freshly
started (alive, no exit code yet), generation bumped. -/
def relaunchProc (p : Proc) : Proc :=
  { alive := true, exitcode := none, gen := p.gen + 1 }

/-- Decision `monitor` takes for one slot during one pass of its `for` loop
(src/task2/process_manager.py lines 26-32): a process that is not alive and
whose exit code differs from 0 is replaced by a fresh process; any other
process is left untouched. -/
def monitorDecision (p : Proc) : Proc :=
  if !p.alive && p.exitcode != some 0 then relaunchProc p else p

/-- One full pass of the `for i, p in enumerate(self.processes)` loop of
`monitor`: every slot is updated independently from its own observed state. -/
def monitorScan (ps : List Proc) : List Proc :=
  ps.map monitorDecision

/-- Effect of the environment on one process during one `time.sleep(1)`
interval: `some c` means the process (if alive) terminates with exit code
`c`; `none` means it keeps running. A process that is already dead stays
dead with its exit code. -/
def envProc (o : Option Int) (p : Proc) : Proc :=
  match o with
  | none => p
  | some c => if p.alive then { alive := false, exitcode := some c, gen := p.gen } else p

/-- Environment step over the whole slot list: `e` gives, per index, the
optional termination happening during the sleep interval. -/
def envStep (e : List (Option Int)) (ps : List Proc) : List Proc :=
  (List.range ps.length).zipWith (fun i p => envProc ((e.getD i none)) p) ps

/-- The `while any(p.is_alive() for p in self.processes)` loop of
`ProcessManager.monitor`, run against a finite schedule of environment
steps: check the guard; if some process is alive, do one scan (relaunching
crashed slots), let the environment act during the sleep, and repeat;
if no process is alive, exit, leaving the slots as they are. -/
def monitorRun (sched : List (List (Option Int))) (ps : List Proc) : List Proc :=
  match sched with
  | [] => ps
  | e :: rest =>
      if ps.any (fun p => p.alive) then monitorRun rest (envStep e (monitorScan ps))
      else ps

end ProcMgr

namespace Task1

/-- State of the threaded pipeline of `BaseScraper.run`
(src/task1/scraper.py lines 30-59): `pending` is the content of
`task_queue` (items put by the orchestrator and not yet pulled),
`processed` records, in pull order, the items already pulled and marked
done by `task_done`, and `trace` is the sequence of values put into
`data_queue` so far. A `data_queue` value is `some r` for a record pushed
by a worker; the sentinel `None` is modelled as `none`. -/
structure PipeState (α β : Type) where
  pending : List α
  processed : List α
  trace : List (Option β)
deriving DecidableEq, Repr

/-- Values one `scrape_worker` iteration pushes into `data_queue` for the
item `x` (src/task1/scraper.py lines 55-58): `data = parse_product(...)`;
`if data: data_queue.put(data)`. `tr` is Python truthiness on records, so a
`None` result and a falsy record are both skipped. -/
def pushOut {α β : Type} (parse : α → Option β) (tr : β → Bool) (x : α) : List (Option β) :=
  match parse x with
  | some r => if tr r then [some r] else []
  | none => []

/-- One atomic `scrape_worker` iteration acting on the pipeline state,
pulling the pending item at position `i` (position in the queue is the only
scheduling nondeterminism): the item is removed from the task queue, its
parse output (if truthy) is pushed to the data queue, and the item is
marked done. An out-of-range position leaves the state unchanged. -/
def stepAt {α β : Type} (parse : α → Option β) (tr : β → Bool)
    (s : PipeState α β) (i : Nat) : PipeState α β :=
  match s.pending[i]? with
  | none => s
  | some x =>
      { pending := s.pending.eraseIdx i
        processed := s.processed ++ [x]
        trace := s.trace ++ pushOut parse tr x }

/-- Initial pipeline state right after `BaseScraper.run` has enqueued every
work item into `task_queue`. -/
def initState {α β : Type} (items : List α) : PipeState α β :=
  { pending := items, processed := [], trace := [] }

/-- The worker pool run under a schedule: the workers collectively perform
one `stepAt` per schedule entry. -/
def runWorkers {α β : Type} (parse : α → Option β) (tr : β → Bool)
    (sched : List Nat) (s : PipeState α β) : PipeState α β :=
  sched.foldl (stepAt parse tr) s

/-- Full sequence of values put into `data_queue` during a run of
`BaseScraper.run`: the worker pushes, followed by the single sentinel the
orchestrator puts after `task_queue.join()` returns
(src/task1/scraper.py lines 44-45). -/
def runTrace {α β : Type} (parse : α → Option β) (tr : β → Bool)
    (items : List α) (sched : List Nat) : List (Option β) :=
  (runWorkers parse tr sched (initState items)).trace ++ [none]

/-- The writer loop shared by `BaseScraper.db_writer_worker`
(src/task1/scraper.py lines 65-68) and `DBWriter.run`
(src/task1/db_writer.py lines 13-16), with a commit that returns:
repeatedly `get` a value from the data queue; stop on the sentinel `None`;
otherwise hand the record to the insert + commit step and continue. The
result is `some l`, `l` the records handed to the insert step in order, when
the loop terminates; it is `none` when the queue runs out without a sentinel
(the blocking `get` then never returns). -/
def writerRun {β : Type} : List (Option β) → Option (List β)
  | [] => none
  | none :: _ => some []
  | some r :: rest => (writerRun rest).map (fun l => r :: l)

/-- A commit capability: inserting record `r` either succeeds or raises an
error `e`. -/
def commitOk {β ε : Type} (commit : β → Except ε Unit) (r : β) : Bool :=
  match commit r with
  | .ok _ => true
  | .error _ => false

/-- Error raised (if any) when committing record `r`. -/
def commitErr {β ε : Type} (commit : β → Except ε Unit) (r : β) : Option ε :=
  match commit r with
  | .ok _ => none
  | .error e => some e

/-- Embedding of `BaseScraper.insert_to_db` (src/task1/scraper.py lines
74-83): the `cur.execute` is wrapped in `try/except Exception`, so a commit
failure is caught and reduced to a logged error; the function itself never
raises. Returns the logged error, if any. -/
def insert_to_db {β ε : Type} (commit : β → Except ε Unit) (r : β) : Option ε :=
  commitErr commit r

/-- Embedding of `BaseScraper.db_writer_worker` using `insert_to_db`
(src/task1/scraper.py lines 61-72): drains the queue until the sentinel,
attempting every record; returns `some (committed, errlog)` on termination
(`committed` the records whose insert succeeded, `errlog` the errors logged
for the records whose insert failed, both in queue order), `none` if the
queue runs out without a sentinel. -/
def db_writer_worker {β ε : Type} (commit : β → Except ε Unit) :
    List (Option β) → Option (List β × List ε)
  | [] => none
  | none :: _ => some ([], [])
  | some r :: rest =>
      match insert_to_db commit r with
      | none => (db_writer_worker commit rest).map (fun p => (r :: p.1, p.2))
      | some e => (db_writer_worker commit rest).map (fun p => (p.1, e :: p.2))

/-- Embedding of `DBWriter.insert` (src/task1/db_writer.py lines 22-28):
`cur.execute` with no `try/except` around it, so a failing commit raises
out of `insert` into the caller. -/
def dbwriter_insert {β ε : Type} (commit : β → Except ε Unit) (r : β) : Except ε Unit :=
  commit r

/-- Possible outcomes of the `DBWriter.run` loop: it blocks on an exhausted
queue with no sentinel, dies on an uncaught insert error, or finishes on the
sentinel; each outcome carries the records committed before it. -/
inductive WriterOutcome (β ε : Type) where
  | blocked (committed : List β)
  | raised (e : ε) (committed : List β)
  | finished (committed : List β)
deriving DecidableEq, Repr

/-- Embedding of `DBWriter.run` (src/task1/db_writer.py lines 9-20) using
`dbwriter_insert`: the loop has no exception handler, so the first failing
insert raises out of the loop and every value still in the queue — records
and sentinel alike — is left unprocessed. -/
def dbwriter_run {β ε : Type} (commit : β → Except ε Unit) :
    List (Option β) → WriterOutcome β ε
  | [] => .blocked []
  | none :: _ => .finished []
  | some r :: rest =>
      match dbwriter_insert commit r with
      | .error e => .raised e []
      | .ok _ =>
          match dbwriter_run commit rest with
          | .blocked c => .blocked (r :: c)
          | .raised e c => .raised e (r :: c)
          | .finished c => .finished (r :: c)


/-- Python `a or b` on strings: the empty string is falsy. -/
def pyOr (a b : String) : String :=
  if a = "" then b else a

/-- Python `a or b` on lists: the empty list is falsy. -/
def pyOrL {γ : Type} (a b : List γ) : List γ :=
  if a.isEmpty then b else a

/-- Outcome of one `session.get(...)` call: `exc` models a raised
`requests.RequestException`; `resp status body` a returned response with its
HTTP status and (already decoded) body. -/
inductive GetOutcome (γ : Type) where
  | exc
  | resp (status : Nat) (body : γ)
deriving DecidableEq, Repr

/-- A product object inside an API JSON body, restricted to the keys
`parse_product` reads via `.get`; an absent key is `none`. -/
structure ApiProduct where
  name : Option String
  title : Option String
  description : Option String
  price_range : Option String
  price : Option String
deriving DecidableEq, Repr

/-- Result of `response.json()` on an API response: a decoding failure
(`json.JSONDecodeError`), a JSON value that is not an object (on which
`data.get` raises `AttributeError`), or an object with its `products`,
`data` and `software` entries (each defaulting to the empty list). -/
inductive JsonOut where
  | decodeErr
  | nonObj
  | obj (products : List ApiProduct) (dataL : List ApiProduct) (software : List ApiProduct)
deriving DecidableEq, Repr

/-- A product block extracted from the category page HTML, restricted to
the XPath results `parse_product` reads: candidate name texts, candidate
detail hrefs, candidate description texts. -/
structure HtmlBlock where
  nameElems : List String
  detailHrefs : List String
  descElems : List String
deriving DecidableEq, Repr

/-- Result of fetching and parsing a category page body with
`html.fromstring` + the product-block XPath: either the parse raises
(`lxml` parser error, e.g. on an empty document) or it yields the list of
product blocks. -/
inductive HtmlOut where
  | parseErr
  | tree (blocks : List HtmlBlock)
deriving DecidableEq, Repr

/-- The XPath results `parse_product` reads from a successfully fetched and
parsed detail page. -/
structure DetailTree where
  priceElems : List String
  descElems : List String
deriving DecidableEq, Repr

/-- A work item as `fetch_category_products` produces it: an API product
wrapped as `{'data': product, 'source': 'api'}`, or a raw HTML block. -/
inductive ProductData where
  | api (p : ApiProduct)
  | htmlBlock (b : HtmlBlock)
deriving DecidableEq, Repr

/-- Exceptions of the fetch path that no `except` clause of the source
catches: an `lxml` parser error from `html.fromstring`, and the
`AttributeError` from calling `.get` on a non-object JSON body. -/
inductive PyErr where
  | parserError
  | attrError
deriving DecidableEq, Repr

/-- One iteration of the `for api_url in api_urls` loop of
`VendrScraper.fetch_api_products` (src/task1/scraper.py lines 128-142):
`ok none` means the loop continues to the next URL (request exception
caught, non-200 status, or JSON decode error caught); `ok (some ps)` means
the function returns `ps`; `error` means an uncaught exception propagates
(`data.get` on a non-object body — the `except` clause only catches
`requests.RequestException` and `json.JSONDecodeError`). -/
def tryApiUrl (o : GetOutcome JsonOut) : Except PyErr (Option (List ProductData)) :=
  match o with
  | .exc => .ok none
  | .resp status body =>
      if status ≠ 200 then .ok none
      else
        match body with
        | .decodeErr => .ok none
        | .nonObj => .error .attrError
        | .obj products dataL software =>
            .ok (some ((pyOrL products (pyOrL dataL software)).map ProductData.api))

/-- Embedding of `VendrScraper.fetch_api_products` (src/task1/scraper.py
lines 116-143) over the outcomes of its three API requests: try each URL in
order, return the first yielded product list, `[]` if all three attempts
fall through. -/
def fetch_api_products (o1 o2 o3 : GetOutcome JsonOut) : Except PyErr (List ProductData) :=
  match tryApiUrl o1 with
  | .error e => .error e
  | .ok (some ps) => .ok ps
  | .ok none =>
    match tryApiUrl o2 with
    | .error e => .error e
    | .ok (some ps) => .ok ps
    | .ok none =>
      match tryApiUrl o3 with
      | .error e => .error e
      | .ok (some ps) => .ok ps
      | .ok none => .ok []

/-- Embedding of `VendrScraper.fetch_category_products` (src/task1/scraper.py
lines 89-114): first try the API; if it yields a non-empty list return it;
otherwise fetch the category page. A raised `requests.RequestException` is
caught and gives `[]`, a non-200 status gives `[]`, but a failure of
`html.fromstring` is not a `RequestException`, so it escapes the
`try/except` and propagates to the caller. -/
def fetch_category_products (o1 o2 o3 : GetOutcome JsonOut)
    (htmlGet : GetOutcome HtmlOut) : Except PyErr (List ProductData) :=
  match fetch_api_products o1 o2 o3 with
  | .error e => .error e
  | .ok products =>
    if !products.isEmpty then .ok products
    else
      match htmlGet with
      | .exc => .ok []
      | .resp status body =>
          if status ≠ 200 then .ok []
          else
            match body with
            | .parseErr => .error .parserError
            | .tree blocks => .ok (blocks.map ProductData.htmlBlock)

/-- The record dictionary `parse_product` builds (src/task1/scraper.py lines
156-161 and 218-223), as an association list in construction order. -/
def mkRecord (name category price_range description : String) : List (String × String) :=
  [("name", name), ("category", category),
   ("price_range", price_range), ("description", description)]

/-- Embedding of `VendrScraper.parse_product` (src/task1/scraper.py lines
145-228). The API branch reads the wrapped product's fields with Python
`.get` defaults and `or` chains and refuses an empty name. The HTML branch
reads the block's XPath results, refuses a missing or empty stripped name
and a missing detail href, then fetches the detail page (`detail` is that
request's outcome, its body the parsed detail tree): a raised
`requests.RequestException` (or `IndexError`) is caught and gives `None`, a
non-200 status gives `None`, otherwise the price and fallback description
are read from the detail tree and the record is returned. -/
def parse_product (pd : ProductData) (category : String)
    (detail : GetOutcome DetailTree) : Option (List (String × String)) :=
  match pd with
  | .api p =>
      let name := pyOr (p.name.getD "") (p.title.getD "")
      let description := p.description.getD "N/A"
      let price_range := pyOr (p.price_range.getD "N/A") (p.price.getD "N/A")
      if name = "" then none
      else some (mkRecord name category price_range description)
  | .htmlBlock b =>
      let name := match b.nameElems.head? with
        | some s => s.trim
        | none => ""
      if name = "" then none
      else
        match b.detailHrefs.head? with
        | none => none
        | some _ =>
            let description := match b.descElems.head? with
              | some d => d.trim
              | none => "N/A"
            match detail with
            | .exc => none
            | .resp status t =>
                if status ≠ 200 then none
                else
                  let price_range := match t.priceElems.head? with
                    | some s => s.trim
                    | none => "N/A"
                  let description2 := if description = "N/A" then
                      match t.descElems.head? with
                      | some d => d.trim
                      | none => "N/A"
                    else description
                  some (mkRecord name category price_range description2)

/-- Python truthiness of a record dictionary: an empty dict is falsy. -/
def recTruthy (r : List (String × String)) : Bool :=
  !r.isEmpty

/-- An API request outcome that avoids the one uncaught exception of
`fetch_api_products`: everything except a 200 response whose JSON body is
not an object. -/
def apiSafe (o : GetOutcome JsonOut) : Bool :=
  match o with
  | .exc => true
  | .resp status body =>
      match body with
      | .nonObj => status != 200
      | _ => true

/-- An HTML request outcome that avoids the one uncaught exception of
`fetch_category_products`: everything except a 200 response whose body
fails `html.fromstring`. -/
def htmlSafe (o : GetOutcome HtmlOut) : Bool :=
  match o with
  | .exc => true
  | .resp status body =>
      match body with
      | .parseErr => status != 200
      | _ => true

/-- An API attempt that makes the URL loop continue: a raised (and caught)
request exception, a non-200 status, or a (caught) JSON decode failure. -/
def apiFallthrough (o : GetOutcome JsonOut) : Bool :=
  match o with
  | .exc => true
  | .resp status body =>
      if status != 200 then true
      else
        match body with
        | .decodeErr => true
        | _ => false

/-- An HTML page fetch that yields no product blocks without raising: a
raised (and caught) request exception or a non-200 status. -/
def htmlFails (o : GetOutcome HtmlOut) : Bool :=
  match o with
  | .exc => true
  | .resp status _ => status != 200

end Task1

open ProcMgr Task1

theorem take_append_drop_take {γ : Type} (l : List γ) {a b : Nat} (hab : a ≤ b) :
    l.take a ++ (l.take b).drop a = l.take b := by
  have h1 : (l.take b).take a = l.take a := by
    rw [List.take_take]
    congr 1
    omega
  calc l.take a ++ (l.take b).drop a
      = (l.take b).take a ++ (l.take b).drop a := by rw [h1]
    _ = l.take b := List.take_append_drop a (l.take b)

theorem chunks_prefix {γ : Type} (L : List γ) (n : Nat) :
    ∀ k, k ≤ n - 1 →
      (List.range k).flatMap (start_processes_chunk L n) =
        L.take (k * (L.length / n)) := by
  intro k
  induction k with
  | zero => intro _; simp
  | succ k ih =>
      intro hk
      have hklt : k < n - 1 := Nat.lt_of_lt_of_le (Nat.lt_succ_self k) hk
      rw [List.range_succ, List.flatMap_append, ih (Nat.le_of_lt hklt)]
      have hchunk : start_processes_chunk L n k =
          (L.take ((k + 1) * (L.length / n))).drop (k * (L.length / n)) := by
        simp only [start_processes_chunk, pySlice]
        rw [if_pos hklt]
      simp only [List.flatMap_cons, List.flatMap_nil, List.append_nil, hchunk]
      exact take_append_drop_take L (Nat.mul_le_mul_right _ (Nat.le_succ k))

theorem chunks_concat {γ : Type} (L : List γ) (n : Nat) (hn : 1 ≤ n) :
    (List.range n).flatMap (start_processes_chunk L n) = L := by
  obtain ⟨m, rfl⟩ : ∃ m, n = m + 1 := ⟨n - 1, (Nat.succ_pred_eq_of_pos hn).symm⟩
  rw [List.range_succ, List.flatMap_append,
    chunks_prefix L (m + 1) m (by omega)]
  have hlast : start_processes_chunk L (m + 1) m = L.drop (m * (L.length / (m + 1))) := by
    simp only [start_processes_chunk, pySlice]
    rw [if_neg (by omega), List.take_length]
  simp only [List.flatMap_cons, List.flatMap_nil, List.append_nil, hlast]
  exact List.take_append_drop _ L

theorem chunk_len {γ : Type} (L : List γ) (n i : Nat)
    (hi : i < n - 1) : (start_processes_chunk L n i).length = L.length / n := by
  have hc : n * (L.length / n) ≤ L.length := Nat.mul_div_le L.length n
  simp only [start_processes_chunk, pySlice]
  rw [if_pos hi, List.length_drop, List.length_take]
  generalize L.length / n = c at hc ⊢
  have hsm : (i + 1) * c = i * c + c := Nat.succ_mul i c
  have hle : (i + 1) * c ≤ n * c := Nat.mul_le_mul_right _ (by omega)
  omega

/-- C1 (code_bug evidence): with the category list `[0, 1, 2]` and 2
workers, `start_processes` assigns chunk `[1, 2]` to the last worker
(index 1), but the chunk `monitor` recomputes for index 1 when relaunching
it is `[1]` — the remainder element `2` is silently dropped, so the
relaunched worker does not get the chunk it was originally assigned. -/
theorem monitor_chunk_drops_remainder :
    start_processes_chunk ([0, 1, 2] : List Nat) 2 1 = [1, 2] ∧
    monitor_chunk ([0, 1, 2] : List Nat) 2 1 = [1] ∧
    ¬ monitor_chunk ([0, 1, 2] : List Nat) 2 1 =
        start_processes_chunk ([0, 1, 2] : List Nat) 2 1 := by
  decide

/-- C3 (counterexample): restart on abnormal exit is not unconditional.
With a single tracked process that has already terminated with exit code 1
when the monitor checks its `while any(p.is_alive())` guard, the guard is
false, the loop exits at once, and the process — dead with a non-zero exit
status — is never relaunched (its slot is untouched, generation still 0). -/
theorem monitor_skips_dead_worker :
    monitorRun [[some 0]] [⟨false, some 1, 0⟩] = [⟨false, some 1, 0⟩] := by
  decide

/-- C3 (amended): whenever the monitor's guard finds some process alive, the
loop performs one scan and each slot of that scan is relaunched exactly when
its process is not alive and has a non-zero exit code — an alive process is
never relaunched and a zero-exit process is never relaunched; but once no
tracked process is alive at a guard check, the loop exits and leaves every
slot untouched, so a process whose abnormal exit is first observed when all
processes are dead is not relaunched. -/
theorem monitor_relaunch_policy (ps : List Proc)
    (sched rest : List (List (Option Int))) (e : List (Option Int)) (i : Nat) :
    ((monitorScan ps)[i]? = (ps[i]?).map (fun p =>
        if !p.alive && p.exitcode != some 0 then relaunchProc p else p)) ∧
    (ps.all (fun p => !p.alive) = true → monitorRun sched ps = ps) ∧
    (ps.any (fun p => p.alive) = true →
      monitorRun (e :: rest) ps = monitorRun rest (envStep e (monitorScan ps))) := by
  refine ⟨?_, ?_, ?_⟩
  · simp only [monitorScan, List.getElem?_map]
    rfl
  · intro h
    have hany : ps.any (fun p => p.alive) = false := by
      simp only [List.all_eq_true] at h
      simp only [List.any_eq_false]
      intro p hp
      simpa using h p hp
    cases sched with
    | nil => rfl
    | cons a r => simp [monitorRun, hany]
  · intro h
    simp [monitorRun, h]

/-- Witness for the amended C3 at a single slot dead with exit code 2:
the scan relaunches it, and a run whose guard never sees an alive process
leaves the slot list unchanged. -/
theorem monitor_relaunch_policy_witness :
    ((monitorScan [⟨false, some 2, 0⟩])[0]? =
      (([⟨false, some 2, 0⟩] : List Proc)[0]?).map (fun p =>
        if !p.alive && p.exitcode != some 0 then relaunchProc p else p)) ∧
    monitorRun [[some 3]] [⟨false, some 2, 0⟩] = [⟨false, some 2, 0⟩] :=
  ⟨(monitor_relaunch_policy [⟨false, some 2, 0⟩] [[some 3]] [] [some 3] 0).1,
   (monitor_relaunch_policy [⟨false, some 2, 0⟩] [[some 3]] [] [some 3] 0).2.1
      (by decide)⟩

/-- C2: for every category list `L` and worker count `n` with
`1 ≤ n ≤ len L`, the chunks computed by `start_processes` concatenate, in
index order, to exactly `L` (so no element is lost and none is duplicated),
and every chunk of index `i < n - 1` has exactly `len L / n` elements. -/
theorem start_processes_partition_complete {γ : Type} (L : List γ) (n : Nat)
    (hn1 : 1 ≤ n) (hn2 : n ≤ L.length) :
    (List.range n).flatMap (start_processes_chunk L n) = L ∧
    ∀ i, i < n - 1 → (start_processes_chunk L n i).length = L.length / n :=
  ⟨chunks_concat L n hn1, fun i hi => chunk_len L n i hi⟩

/-- Witness for C2 at `L = [0, 1, 2, 3, 4]`, `n = 2`: the two chunks
concatenate to `L` and chunk 0 has `5 / 2 = 2` elements. -/
theorem start_processes_partition_complete_witness :
    (List.range 2).flatMap (start_processes_chunk ([0, 1, 2, 3, 4] : List Nat) 2) =
        [0, 1, 2, 3, 4] ∧
    (start_processes_chunk ([0, 1, 2, 3, 4] : List Nat) 2 0).length = 5 / 2 :=
  ⟨(start_processes_partition_complete [0, 1, 2, 3, 4] 2 (by decide) (by decide)).1,
   (start_processes_partition_complete [0, 1, 2, 3, 4] 2 (by decide) (by decide)).2
      0 (by decide)⟩

/-- C9: when there are more workers than categories (`len L < n`, `n ≥ 1`),
`start_processes` still produces a loss-free, duplicate-free partition: the
chunk size `len L / n` is 0, every worker of index `i < n - 1` receives the
empty chunk, the last worker receives all of `L`, and the chunks still
concatenate to exactly `L`. -/
theorem start_processes_more_workers {γ : Type} (L : List γ) (n : Nat)
    (hn1 : 1 ≤ n) (hn2 : L.length < n) :
    (∀ i, i < n - 1 → start_processes_chunk L n i = []) ∧
    start_processes_chunk L n (n - 1) = L ∧
    (List.range n).flatMap (start_processes_chunk L n) = L := by
  have hc : L.length / n = 0 := Nat.div_eq_of_lt hn2
  refine ⟨?_, ?_, chunks_concat L n hn1⟩
  · intro i hi
    simp only [start_processes_chunk, pySlice]
    rw [if_pos hi, hc]
    simp
  · simp only [start_processes_chunk, pySlice]
    rw [if_neg (by omega), hc, List.take_length]
    simp

theorem getElem?_perm_eraseIdx {α : Type} :
    ∀ (l : List α) (i : Nat) (x : α), l[i]? = some x → l.Perm (x :: l.eraseIdx i)
  | [], i, x, h => by simp at h
  | y :: t, 0, x, h => by
      simp at h
      subst h
      simp [List.eraseIdx]
  | y :: t, i + 1, x, h => by
      have ht : t[i]? = some x := by simpa using h
      have ih := getElem?_perm_eraseIdx t i x ht
      have h1 : (y :: t).Perm (y :: x :: t.eraseIdx i) := ih.cons y
      have h2 : (y :: x :: t.eraseIdx i).Perm (x :: y :: t.eraseIdx i) :=
        List.Perm.swap x y (t.eraseIdx i)
      have h3 : (y :: t).eraseIdx (i + 1) = y :: t.eraseIdx i := by
        simp [List.eraseIdx]
      rw [h3]
      exact h1.trans h2

theorem pushOut_ne_none {α β : Type} (parse : α → Option β) (tr : β → Bool)
    (x : α) (v : Option β) (hv : v ∈ pushOut parse tr x) : v ≠ none := by
  unfold pushOut at hv
  split at hv
  · split at hv
    · simp at hv
      simp [hv]
    · simp at hv
  · simp at hv

theorem runWorkers_spec {α β : Type} (parse : α → Option β) (tr : β → Bool) :
    ∀ (sched : List Nat) (s : PipeState α β),
      ((runWorkers parse tr sched s).pending ++
        (runWorkers parse tr sched s).processed).Perm (s.pending ++ s.processed) ∧
      ∃ Y, (runWorkers parse tr sched s).processed = s.processed ++ Y ∧
        (runWorkers parse tr sched s).trace =
          s.trace ++ Y.flatMap (pushOut parse tr)
  | [], s => ⟨List.Perm.refl _, [], by simp [runWorkers], by simp [runWorkers]⟩
  | i :: rest, s => by
      have hfold : runWorkers parse tr (i :: rest) s =
          runWorkers parse tr rest (stepAt parse tr s i) := rfl
      obtain ⟨hperm, Y1, hproc, htrace⟩ := runWorkers_spec parse tr rest (stepAt parse tr s i)
      rw [hfold]
      cases hx : s.pending[i]? with
      | none =>
          have hstep : stepAt parse tr s i = s := by unfold stepAt; rw [hx]
          rw [hstep] at hperm hproc htrace ⊢
          exact ⟨hperm, Y1, hproc, htrace⟩
      | some x =>
          have hstep : stepAt parse tr s i =
              { pending := s.pending.eraseIdx i
                processed := s.processed ++ [x]
                trace := s.trace ++ pushOut parse tr x } := by
            unfold stepAt; rw [hx]
          rw [hstep] at hperm hproc htrace ⊢
          dsimp only at hperm hproc htrace
          refine ⟨?_, x :: Y1, ?_, ?_⟩
          · refine hperm.trans ?_
            have h1 : s.pending.Perm (x :: s.pending.eraseIdx i) :=
              getElem?_perm_eraseIdx s.pending i x hx
            have h2 : (s.pending.eraseIdx i ++ (s.processed ++ [x])).Perm
                ((x :: s.pending.eraseIdx i) ++ s.processed) := by
              have ha : (s.pending.eraseIdx i ++ (s.processed ++ [x])).Perm
                  ((s.pending.eraseIdx i ++ [x]) ++ s.processed) := by
                rw [List.append_assoc]
                exact List.Perm.append_left _ List.perm_append_comm
              have hc : ((s.pending.eraseIdx i ++ [x]) ++ s.processed).Perm
                  ((x :: s.pending.eraseIdx i) ++ s.processed) :=
                List.Perm.append_right s.processed List.perm_append_comm
              exact ha.trans hc
            have h3 : ((x :: s.pending.eraseIdx i) ++ s.processed).Perm
                (s.pending ++ s.processed) :=
              List.Perm.append_right s.processed h1.symm
            exact h2.trans h3
          · rw [hproc]
            simp
          · rw [htrace]
            simp

/-- C4: in every run of `BaseScraper.run` whose `task_queue.join()` returns
(every pending item has been pulled and marked done), the sentinel `None`
appears in the `data_queue` stream exactly once, as its last element, it is
put only after every enqueued item has been dequeued and marked done exactly
once (the processed items are a permutation of the enqueued items), and no
worker push is ever the sentinel. -/
theorem run_sentinel_once {α β : Type} [DecidableEq β] (parse : α → Option β)
    (tr : β → Bool) (items : List α) (sched : List Nat)
    (hdone : (runWorkers parse tr sched (initState items)).pending = []) :
    (runTrace parse tr items sched).count none = 1 ∧
    (runTrace parse tr items sched).getLast? = some none ∧
    (∀ v ∈ (runWorkers parse tr sched (initState items)).trace, v ≠ none) ∧
    (runWorkers parse tr sched (initState items)).processed.Perm items := by
  obtain ⟨hperm, Y, hproc, htrace⟩ := runWorkers_spec parse tr sched (initState items)
  have htrace2 : (runWorkers parse tr sched (initState items)).trace =
      Y.flatMap (pushOut parse tr) := by
    rw [htrace]
    rfl
  have hperm2 : ((runWorkers parse tr sched (initState items)).pending ++
      (runWorkers parse tr sched (initState items)).processed).Perm (items ++ []) := hperm
  rw [hdone] at hperm2
  simp at hperm2
  have hne : ∀ v ∈ (runWorkers parse tr sched (initState items)).trace, v ≠ none := by
    intro v hv
    rw [htrace2] at hv
    obtain ⟨a, _, hva⟩ := List.mem_flatMap.mp hv
    exact pushOut_ne_none parse tr a v hva
  refine ⟨?_, ?_, hne, hperm2⟩
  · unfold runTrace
    rw [List.count_append]
    have h0 : ((runWorkers parse tr sched (initState items)).trace).count
        (none : Option β) = 0 :=
      List.count_eq_zero.mpr (fun hmem => hne none hmem rfl)
    rw [h0]
    rfl
  · unfold runTrace
    simp [List.getLast?_append]

/-- Witness for C4 with two items and a transform that keeps both: the run
trace ends with its unique sentinel and both items are processed. -/
theorem run_sentinel_once_witness :
    (runTrace (fun n => some n) (fun _ => true) [10, 11] [0, 0]).count none = 1 ∧
    (runTrace (fun n => some n) (fun _ => true) [10, 11] [0, 0]).getLast? =
      some none ∧
    (∀ v ∈ (runWorkers (fun n => some n) (fun _ => true) [0, 0]
        (initState [10, 11])).trace, v ≠ none) ∧
    (runWorkers (fun n => some n) (fun _ => true) [0, 0]
        (initState [10, 11])).processed.Perm [10, 11] :=
  run_sentinel_once (fun n => some n) (fun _ => true) [10, 11] [0, 0] (by decide)

/-- Witness for C9 at `L = [7, 8]`, `n = 5`: worker 0 gets the empty chunk,
worker 4 gets all of `L`, and the chunks concatenate to `L`. -/
theorem start_processes_more_workers_witness :
    start_processes_chunk ([7, 8] : List Nat) 5 0 = [] ∧
    start_processes_chunk ([7, 8] : List Nat) 5 (5 - 1) = [7, 8] ∧
    (List.range 5).flatMap (start_processes_chunk ([7, 8] : List Nat) 5) = [7, 8] :=
  ⟨(start_processes_more_workers [7, 8] 5 (by decide) (by decide)).1 0 (by decide),
   (start_processes_more_workers [7, 8] 5 (by decide) (by decide)).2.1,
   (start_processes_more_workers [7, 8] 5 (by decide) (by decide)).2.2⟩

/-- C5: the writer loop (with a commit capability that returns rather than
raises, as `insert_to_db` provides) terminates exactly when the queue it
drains contains the sentinel, and for a queue consisting of records followed
by the sentinel it passes each of those records to the commit step exactly
once, in order. -/
theorem writer_sentinel_termination {β : Type} (q : List (Option β)) (rs : List β) :
    ((writerRun q).isSome = true ↔ none ∈ q) ∧
    writerRun (rs.map some ++ [none]) = some rs := by
  constructor
  · induction q with
    | nil => simp [writerRun]
    | cons a rest ih =>
        cases a with
        | none => simp [writerRun]
        | some r => simpa [writerRun] using ih
  · induction rs with
    | nil => simp [writerRun]
    | cons r rest ih => simp [writerRun, ih]

/-- Witness for C5 at the queue `[some 7, none]` and the record list
`[5, 6]`. -/
theorem writer_sentinel_termination_witness :
    ((writerRun [some 7, none]).isSome = true ↔ none ∈ [some 7, none]) ∧
    writerRun (([5, 6] : List Nat).map some ++ [none]) = some [5, 6] :=
  writer_sentinel_termination [some 7, none] [5, 6]

/-- C6 (counterexample): with `DBWriter.run` and `DBWriter.insert` — which
has no `try/except` — a commit failure terminates the writer loop and loses
later-enqueued records: on the queue `[some 1, some 2, none]` with a commit
that fails exactly on record 1, the loop raises at the first record, record
2 is never passed to the commit step, and the sentinel is never consumed. -/
theorem dbwriter_insert_propagates :
    dbwriter_run (fun r : Nat => if r = 1 then Except.error () else Except.ok ())
      [some 1, some 2, none] = WriterOutcome.raised () [] := by
  decide

/-- C6 (amended): `BaseScraper`'s writer (`db_writer_worker` with
`insert_to_db`, which catches the insert error) satisfies the claim — every
record before the sentinel is attempted exactly once, failures are logged
and dropped, the loop always reaches the sentinel; `DBWriter.run` with
`DBWriter.insert` does not: after any prefix of successfully committed
records, the first failing record raises out of the loop, so the records
enqueued after it go uncommitted. -/
theorem writer_failure_isolation {β ε : Type} (commit : β → Except ε Unit)
    (rs pre post : List β) (r : β) (e : ε)
    (hpre : ∀ x ∈ pre, commitOk commit x = true)
    (hr : commit r = Except.error e) :
    db_writer_worker commit (rs.map some ++ [none]) =
      some (rs.filter (commitOk commit), rs.filterMap (commitErr commit)) ∧
    dbwriter_run commit ((pre ++ r :: post).map some ++ [none]) =
      WriterOutcome.raised e pre := by
  constructor
  · induction rs with
    | nil => simp [db_writer_worker]
    | cons x rest ih =>
        cases hcx : commit x with
        | ok u =>
            simp [db_writer_worker, insert_to_db, commitErr, commitOk, hcx, ih]
        | error e1 =>
            simp [db_writer_worker, insert_to_db, commitErr, commitOk, hcx, ih]
  · induction pre with
    | nil => simp [dbwriter_run, dbwriter_insert, hr]
    | cons x rest ih =>
        have hx : commitOk commit x = true := hpre x (by simp)
        have hxok : commit x = Except.ok () := by
          unfold commitOk at hx
          cases hcx : commit x with
          | ok u => rfl
          | error e2 => rw [hcx] at hx; simp at hx
        have ihr := ih (fun y hy => hpre y (by simp [hy]))
        simp only [List.map_append, List.map_cons, List.append_assoc,
          List.cons_append] at ihr
        simp [dbwriter_run, dbwriter_insert, hxok, ihr]

/-- Witness for the amended C6: a commit failing exactly on record 1,
`BaseScraper`'s writer drains `[3, 1, 4]` committing 3 and 4 and logging the
one failure, while `DBWriter.run` on `[2, 1, 5]` commits 2, raises at 1 and
never reaches 5. -/
theorem writer_failure_isolation_witness :
    db_writer_worker (fun r : Nat => if r = 1 then Except.error () else Except.ok ())
        (([3, 1, 4] : List Nat).map some ++ [none]) =
      some (([3, 1, 4] : List Nat).filter
          (commitOk (fun r : Nat => if r = 1 then Except.error () else Except.ok ())),
        ([3, 1, 4] : List Nat).filterMap
          (commitErr (fun r : Nat => if r = 1 then Except.error () else Except.ok ()))) ∧
    dbwriter_run (fun r : Nat => if r = 1 then Except.error () else Except.ok ())
        (([2] ++ 1 :: [5]).map some ++ [none]) = WriterOutcome.raised () [2] :=
  writer_failure_isolation (fun r : Nat => if r = 1 then Except.error () else Except.ok ())
    [3, 1, 4] [2] [5] 1 () (by decide) (by simp)

theorem flatMap_pushOut {α β : Type} (parse : α → Option β) (tr : β → Bool)
    (htr : ∀ r, tr r = true) :
    ∀ l : List α, l.flatMap (pushOut parse tr) = (l.filterMap parse).map some
  | [] => by simp
  | x :: rest => by
      rw [List.flatMap_cons, List.filterMap_cons, flatMap_pushOut parse tr htr rest]
      cases hp : parse x with
      | none => simp [pushOut, hp]
      | some r => simp [pushOut, hp, htr r]

theorem drain_schedule {α β : Type} (parse : α → Option β) (tr : β → Bool) :
    ∀ (l p : List α) (t : List (Option β)),
      (runWorkers parse tr (List.replicate l.length 0)
        ({ pending := l, processed := p, trace := t } : PipeState α β)).pending = []
  | [], p, t => rfl
  | x :: rest, p, t => by
      have hstep : stepAt parse tr
          ({ pending := x :: rest, processed := p, trace := t } : PipeState α β) 0 =
          { pending := rest, processed := p ++ [x], trace := t ++ pushOut parse tr x } := by
        unfold stepAt
        simp
      have hrun : runWorkers parse tr (List.replicate (x :: rest).length 0)
          ({ pending := x :: rest, processed := p, trace := t } : PipeState α β) =
          runWorkers parse tr (List.replicate rest.length 0)
            { pending := rest, processed := p ++ [x], trace := t ++ pushOut parse tr x } := by
        rw [List.length_cons, List.replicate_succ]
        show runWorkers parse tr (List.replicate rest.length 0)
          (stepAt parse tr _ 0) = _
        rw [hstep]
      rw [hrun]
      exact drain_schedule parse tr rest (p ++ [x]) (t ++ pushOut parse tr x)

/-- C7: for every item list and every transform, under any worker schedule
that drains the task queue, every dequeued item is marked done (the
processed items are a permutation of the enqueued ones), the values pushed
to the result queue are exactly the non-absent transform results (as a
multiset — e.g. 5 items with 2 absent results yield exactly 3 pushes), and
a draining schedule always exists, so the task queue can reach the
all-items-done state. The hypothesis on `tr` says records are truthy, which
holds for the non-empty record dictionaries this program produces. -/
theorem transform_failure_isolation {α β : Type} (parse : α → Option β)
    (tr : β → Bool) (items : List α) (sched : List Nat)
    (htr : ∀ r, tr r = true)
    (hdone : (runWorkers parse tr sched (initState items)).pending = []) :
    (runWorkers parse tr sched (initState items)).processed.Perm items ∧
    (runWorkers parse tr sched (initState items)).trace.Perm
      ((items.filterMap parse).map some) ∧
    ∃ sched2, (runWorkers parse tr sched2 (initState items : PipeState α β)).pending = [] := by
  obtain ⟨hperm, Y, hproc, htrace⟩ := runWorkers_spec parse tr sched (initState items)
  have hproc2 : (runWorkers parse tr sched (initState items)).processed = Y := hproc
  have htrace2 : (runWorkers parse tr sched (initState items)).trace =
      Y.flatMap (pushOut parse tr) := htrace
  have hperm2 : ((runWorkers parse tr sched (initState items)).pending ++
      (runWorkers parse tr sched (initState items)).processed).Perm (items ++ []) := hperm
  rw [hdone] at hperm2
  simp at hperm2
  refine ⟨hperm2, ?_, List.replicate items.length 0, drain_schedule parse tr items [] []⟩
  rw [htrace2, flatMap_pushOut parse tr htr Y, ← hproc2]
  exact ((hperm2.filterMap parse).map some)

/-- Witness for C7 with 5 queued items of which 2 have an absent transform
result: the processed items are all 5 and exactly the 3 present results are
pushed. -/
theorem transform_failure_isolation_witness :
    (runWorkers (fun n => if n % 2 = 1 then some (n * 10) else none) (fun _ => true)
      [0, 0, 0, 0, 0] (initState [1, 2, 3, 4, 5])).processed.Perm [1, 2, 3, 4, 5] ∧
    (runWorkers (fun n => if n % 2 = 1 then some (n * 10) else none) (fun _ => true)
      [0, 0, 0, 0, 0] (initState [1, 2, 3, 4, 5])).trace.Perm
      (([1, 2, 3, 4, 5].filterMap (fun n => if n % 2 = 1 then some (n * 10) else none)).map
        some) ∧
    ∃ sched2, (runWorkers (fun n => if n % 2 = 1 then some (n * 10) else none)
      (fun _ => true) sched2 (initState [1, 2, 3, 4, 5] : PipeState Nat Nat)).pending = [] :=
  transform_failure_isolation (fun n => if n % 2 = 1 then some (n * 10) else none)
    (fun _ => true) [1, 2, 3, 4, 5] [0, 0, 0, 0, 0] (fun _ => rfl) (by decide)

theorem tryApiUrl_safe (o : GetOutcome JsonOut) (h : apiSafe o = true) :
    ∃ r, tryApiUrl o = Except.ok r := by
  cases o with
  | exc => exact ⟨none, rfl⟩
  | resp status body =>
      by_cases hst : status = 200
      · subst hst
        cases body with
        | decodeErr => exact ⟨none, by simp [tryApiUrl]⟩
        | nonObj => simp [apiSafe] at h
        | obj p d s =>
            exact ⟨some ((pyOrL p (pyOrL d s)).map ProductData.api), by simp [tryApiUrl]⟩
      · exact ⟨none, by simp [tryApiUrl, hst]⟩

theorem tryApiUrl_fallthrough (o : GetOutcome JsonOut) (hf : apiFallthrough o = true) :
    tryApiUrl o = Except.ok none := by
  cases o with
  | exc => rfl
  | resp status body =>
      by_cases hst : status = 200
      · subst hst
        cases body with
        | decodeErr => simp [tryApiUrl]
        | nonObj => simp [apiFallthrough] at hf
        | obj p d s => simp [apiFallthrough] at hf
      · simp [tryApiUrl, hst]

/-- C8 (counterexample): an HTML parse failure does propagate. When all
three API attempts raise a (caught) request exception and the category page
returns status 200 with a body on which `html.fromstring` fails (e.g. an
empty document), `fetch_category_products` raises the parser error to its
caller instead of returning an empty sequence. -/
theorem fetch_raises_on_parse_failure :
    fetch_category_products GetOutcome.exc GetOutcome.exc GetOutcome.exc
      (GetOutcome.resp 200 HtmlOut.parseErr) = Except.error PyErr.parserError := by
  rfl

/-- C8 (amended): `fetch_category_products` never raises on a failing HTTP
response, a raised request exception, or a JSON decode failure — provided no
API attempt is a 200 response with a non-object JSON body (which would raise
an uncaught `AttributeError`) and the HTML fetch is not a 200 response whose
body fails `html.fromstring` (which raises an uncaught parser error); and
when every API attempt falls through and the HTML fetch itself fails, it
returns exactly the empty sequence. -/
theorem fetch_no_raise_amended (o1 o2 o3 : GetOutcome JsonOut) (h : GetOutcome HtmlOut)
    (h1 : apiSafe o1 = true) (h2 : apiSafe o2 = true) (h3 : apiSafe o3 = true)
    (hh : htmlSafe h = true) :
    (∃ ps, fetch_category_products o1 o2 o3 h = Except.ok ps) ∧
    (apiFallthrough o1 = true → apiFallthrough o2 = true → apiFallthrough o3 = true →
      htmlFails h = true → fetch_category_products o1 o2 o3 h = Except.ok []) := by
  obtain ⟨r1, hr1⟩ := tryApiUrl_safe o1 h1
  obtain ⟨r2, hr2⟩ := tryApiUrl_safe o2 h2
  obtain ⟨r3, hr3⟩ := tryApiUrl_safe o3 h3
  have hfa : ∃ qs, fetch_api_products o1 o2 o3 = Except.ok qs := by
    cases r1 with
    | some ps => exact ⟨ps, by simp [fetch_api_products, hr1]⟩
    | none =>
        cases r2 with
        | some ps => exact ⟨ps, by simp [fetch_api_products, hr1, hr2]⟩
        | none =>
            cases r3 with
            | some ps => exact ⟨ps, by simp [fetch_api_products, hr1, hr2, hr3]⟩
            | none => exact ⟨[], by simp [fetch_api_products, hr1, hr2, hr3]⟩
  obtain ⟨qs, hqs⟩ := hfa
  constructor
  · by_cases hq : qs.isEmpty
    · cases h with
      | exc => exact ⟨[], by simp [fetch_category_products, hqs, hq]⟩
      | resp status body =>
          by_cases hst : status = 200
          · subst hst
            cases body with
            | parseErr => simp [htmlSafe] at hh
            | tree blocks =>
                exact ⟨blocks.map ProductData.htmlBlock,
                  by simp [fetch_category_products, hqs, hq]⟩
          · exact ⟨[], by simp [fetch_category_products, hqs, hq, hst]⟩
    · exact ⟨qs, by simp [fetch_category_products, hqs, hq]⟩
  · intro f1 f2 f3 fh
    have e1 := tryApiUrl_fallthrough o1 f1
    have e2 := tryApiUrl_fallthrough o2 f2
    have e3 := tryApiUrl_fallthrough o3 f3
    have hfae : fetch_api_products o1 o2 o3 = Except.ok [] := by
      simp [fetch_api_products, e1, e2, e3]
    cases h with
    | exc => simp [fetch_category_products, hfae]
    | resp status body =>
        have hst : ¬ status = 200 := by
          simp [htmlFails] at fh
          exact fh
        simp [fetch_category_products, hfae, hst]

/-- Witness for the amended C8: with all three API attempts and the HTML
fetch raising caught request exceptions, the fetch returns the empty
sequence without raising. -/
theorem fetch_no_raise_amended_witness :
    (∃ ps, fetch_category_products GetOutcome.exc GetOutcome.exc GetOutcome.exc
      (GetOutcome.exc : GetOutcome HtmlOut) = Except.ok ps) ∧
    fetch_category_products GetOutcome.exc GetOutcome.exc GetOutcome.exc
      (GetOutcome.exc : GetOutcome HtmlOut) = Except.ok [] :=
  ⟨(fetch_no_raise_amended GetOutcome.exc GetOutcome.exc GetOutcome.exc
      GetOutcome.exc rfl rfl rfl rfl).1,
   (fetch_no_raise_amended GetOutcome.exc GetOutcome.exc GetOutcome.exc
      GetOutcome.exc rfl rfl rfl rfl).2 rfl rfl rfl rfl⟩

theorem mem_pushOut {α β : Type} (parse : α → Option β) (tr : β → Bool)
    (x : α) (v : Option β) (hv : v ∈ pushOut parse tr x) :
    ∃ w, v = some w ∧ parse x = some w ∧ tr w = true := by
  unfold pushOut at hv
  split at hv
  next r hpr =>
    split at hv
    next htr =>
      simp at hv
      exact ⟨r, by simp [hv], hpr, htr⟩
    next => simp at hv
  next => simp at hv

theorem parse_product_shape_aux (pd : ProductData) (cat : String)
    (detail : GetOutcome DetailTree) (r : List (String × String))
    (hr : parse_product pd cat detail = some r) :
    ∃ nm pr ds, r = mkRecord nm cat pr ds ∧ ¬ nm = "" := by
  cases pd with
  | api p =>
      simp only [parse_product] at hr
      split at hr
      · exact absurd hr (by simp)
      · next hne => exact ⟨_, _, _, (Option.some.inj hr).symm, hne⟩
  | htmlBlock b =>
      simp only [parse_product] at hr
      split at hr
      · exact absurd hr (by simp)
      · next hne =>
          split at hr
          · exact absurd hr (by simp)
          · split at hr
            · exact absurd hr (by simp)
            · split at hr
              · exact absurd hr (by simp)
              · exact ⟨_, _, _, (Option.some.inj hr).symm, hne⟩

/-- C10: every record `parse_product` returns — from the API branch or the
HTML branch — is exactly the four-field dictionary `name, category,
price_range, description` in which the name is non-empty and the category
field is the category argument; and every value a worker pushes into the
result queue is `some` such record (never the sentinel `None`), built from
an enqueued item with its own category. -/
theorem parse_product_record_shape (pd : ProductData) (cat : String)
    (detail : GetOutcome DetailTree) (r : List (String × String))
    (hr : parse_product pd cat detail = some r) :
    (r.map Prod.fst = ["name", "category", "price_range", "description"]) ∧
    (∃ nm pr ds, r = mkRecord nm cat pr ds ∧ ¬ nm = "") ∧
    (∀ (items : List (ProductData × String × GetOutcome DetailTree))
      (sched : List Nat) (v : Option (List (String × String))),
      v ∈ (runWorkers (fun it => parse_product it.1 it.2.1 it.2.2) recTruthy sched
        (initState items)).trace →
      ∃ it, it ∈ items ∧ ∃ w nm pr ds, v = some w ∧
        w = mkRecord nm it.2.1 pr ds ∧ ¬ nm = "") := by
  obtain ⟨nm0, pr0, ds0, hw0, hnm0⟩ := parse_product_shape_aux pd cat detail r hr
  refine ⟨by rw [hw0]; rfl, ⟨nm0, pr0, ds0, hw0, hnm0⟩, ?_⟩
  intro items sched v hv
  obtain ⟨hperm, Y, hproc, htrace⟩ :=
    runWorkers_spec (fun it => parse_product it.1 it.2.1 it.2.2) recTruthy sched
      (initState items)
  have htrace2 : (runWorkers (fun it => parse_product it.1 it.2.1 it.2.2) recTruthy
      sched (initState items)).trace = Y.flatMap (pushOut
        (fun it => parse_product it.1 it.2.1 it.2.2) recTruthy) := htrace
  rw [htrace2] at hv
  obtain ⟨it, hitY, hpush⟩ := List.mem_flatMap.mp hv
  obtain ⟨w, hvw, hpw, _⟩ := mem_pushOut _ _ it v hpush
  have hitproc : it ∈ (runWorkers (fun it => parse_product it.1 it.2.1 it.2.2)
      recTruthy sched (initState items)).processed := by
    have hproc2 : (runWorkers (fun it => parse_product it.1 it.2.1 it.2.2)
        recTruthy sched (initState items)).processed = Y := hproc
    rw [hproc2]
    exact hitY
  have hitems : it ∈ items := by
    have h2 := List.mem_append_right
      (runWorkers (fun it => parse_product it.1 it.2.1 it.2.2) recTruthy sched
        (initState items)).pending hitproc
    have h3 := hperm.mem_iff.mp h2
    simpa [initState] using h3
  obtain ⟨nm, pr, ds, hw, hnm⟩ := parse_product_shape_aux it.1 it.2.1 it.2.2 w hpw
  exact ⟨it, hitems, w, nm, pr, ds, hvw, hw, hnm⟩

/-- Witness for C10 at an API product named Widget in category DevOps: the
record has exactly the four fields with a non-empty name, and the one value
pushed by a worker processing that item is that record. -/
theorem parse_product_record_shape_witness :
    ((mkRecord "Widget" "DevOps" "N/A" "N/A").map Prod.fst =
      ["name", "category", "price_range", "description"]) ∧
    (∃ nm pr ds, mkRecord "Widget" "DevOps" "N/A" "N/A" =
      mkRecord nm "DevOps" pr ds ∧ ¬ nm = "") ∧
    (∃ it, it ∈ [(ProductData.api ⟨some "Widget", none, none, none, none⟩, "DevOps",
        (GetOutcome.exc : GetOutcome DetailTree))] ∧ ∃ w nm pr ds,
      (some (mkRecord "Widget" "DevOps" "N/A" "N/A") :
        Option (List (String × String))) = some w ∧
      w = mkRecord nm it.2.1 pr ds ∧ ¬ nm = "") :=
  ⟨(parse_product_record_shape
      (ProductData.api ⟨some "Widget", none, none, none, none⟩) "DevOps"
      GetOutcome.exc (mkRecord "Widget" "DevOps" "N/A" "N/A") rfl).1,
   (parse_product_record_shape
      (ProductData.api ⟨some "Widget", none, none, none, none⟩) "DevOps"
      GetOutcome.exc (mkRecord "Widget" "DevOps" "N/A" "N/A") rfl).2.1,
   (parse_product_record_shape
      (ProductData.api ⟨some "Widget", none, none, none, none⟩) "DevOps"
      GetOutcome.exc (mkRecord "Widget" "DevOps" "N/A" "N/A") rfl).2.2
      [(ProductData.api ⟨some "Widget", none, none, none, none⟩, "DevOps",
        GetOutcome.exc)] [0] (some (mkRecord "Widget" "DevOps" "N/A" "N/A"))
      (by decide)⟩
